import Mathlib

/-!
Shallow embedding of the Battlefield System Foundry VTT module.

The JavaScript sources are embedded as executable Lean definitions:

* `battlefield-system.js` (newest generation of `BattlefieldActor`):
  `addStatus`, `removeStatus`, `getStatusItems`, and the deprecated
  `addStatusEffect` shim (namespace `CurrentGen`).
* `documents/BattlefieldActor.js` (legacy generation of `BattlefieldActor`):
  `addStatusEffect` over the host's ActiveEffect store (namespace `LegacyGen`).
* `documents/dataModels.js`: `ArmyDataModel` hero-list editing
  (`updateHero` / `removeHero`), `FactionDataModel.removeEnemy`, and
  `StructureDataModel.getFullType`.
* `sheets/ArmySheet.js` `_updateObject`: the flat form-data reassembly that
  projects per-row `hero-{field}-{i}` keys into dotted-path updates and merges
  them with the remaining flat keys into a single patch.

JavaScript conventions are made explicit:

* A function argument that may not be a string is modelled by `JSArg`
  (a string, or any non-string value).  A numeric index that may not be an
  integer is modelled by `JSNum`.
* `throw` in a function whose exceptions escape is modelled by `Except`;
  a `try { ... } catch { log }` block that swallows every exception is
  modelled by a total function returning the unchanged state on the error
  paths (nothing propagates past the call, exactly as in the source).
  One subtlety: a `try`/`catch` only guards what is awaited inside it, so
  the deprecated shim's un-awaited `return this.addStatus(...)` still has
  an escaping error path (see `CurrentGen.addStatusEffect`).
* JavaScript objects used as string-keyed dictionaries (form data, patches)
  are modelled as association lists with unique keys in insertion order;
  `{...a, ...b}` spread-merge is `mergeJS`.
* `statusName.trim() === ''` is true exactly when every character of the
  string lies in the ECMAScript trim set (WhiteSpace and LineTerminator code
  points, `isJSWhitespace` below); the check is embedded in that directly
  computable form (`String.trim` itself does not reduce in the kernel, and
  Lean's `Char.isWhitespace` covers a smaller set than JavaScript's `trim`).
-/

/-- The set of code points removed by JavaScript `String.prototype.trim()`:
the ECMAScript WhiteSpace production (TAB, VT, FF, SP, NBSP, ZWNBSP and the
Unicode space-separator category Zs) and the LineTerminator production
(LF, CR, LS, PS). -/
def isJSWhitespace (c : Char) : Bool :=
  c.val = 0x0009 || c.val = 0x000A || c.val = 0x000B || c.val = 0x000C ||
  c.val = 0x000D || c.val = 0x0020 || c.val = 0x00A0 || c.val = 0x1680 ||
  (0x2000 ≤ c.val && c.val ≤ 0x200A) || c.val = 0x2028 || c.val = 0x2029 ||
  c.val = 0x202F || c.val = 0x205F || c.val = 0x3000 || c.val = 0xFEFF

/-- A JavaScript argument that is either a string or some non-string value
(`null`, `undefined`, a number, ...).  `typeof x !== 'string'` holds exactly
on `jother`. -/
inductive JSArg where
  | jstr (s : String)
  | jother
deriving DecidableEq

/-- A JavaScript numeric argument: an integer, or a value for which
`Number.isInteger` is `false` (`NaN`, a fractional number, ...). -/
inductive JSNum where
  | int (i : Int)
  | nonInt
deriving DecidableEq

/-- The check `!statusName || typeof statusName !== 'string' ||
statusName.trim() === ''` from `addStatus`, as a predicate on the argument:
the argument is a string containing at least one character outside the JS
trim whitespace set.  (`trim` yields the empty string exactly when every
character is in that set, which also covers the empty string itself.) -/
def isValidStatusName : JSArg → Bool
  | .jstr s => !(s.data.all isJSWhitespace)
  | .jother => false

/-- Nullable sub-fields of a Status item's `duration` object
(`{rounds, turns, seconds}`, all nullable). -/
structure StatusDuration where
  rounds : Option Int
  turns : Option Int
  seconds : Option Int
deriving DecidableEq

/-- An embedded Item document of the actor, with the fields used by the
status registry: Foundry `id`, `name`, `type`, `img`, the `StatusDataModel`
system fields (`description`, `duration`, `isActive`, `source`), and the
`battlefield-system.isStatus` flag set by `addStatus`. -/
structure Item where
  id : String
  name : String
  type : String
  img : String
  description : String
  duration : Option StatusDuration
  isActive : Bool
  source : String
  flagIsStatus : Bool
deriving DecidableEq

/-- The newest-generation `BattlefieldActor` (from `battlefield-system.js`):
its own identity reference `uuid` and its embedded Item collection, in
insertion order. -/
structure BattlefieldActor where
  uuid : String
  items : List Item
deriving DecidableEq

namespace CurrentGen

/-- The predicate `item.type === 'status' && item.name === statusName` used
by `addStatus` to search for an existing Status child. -/
def statusMatch (statusName : String) (it : Item) : Bool :=
  it.type == "status" && it.name == statusName

/-- The Item payload passed to `createEmbeddedDocuments` by `addStatus`:
empty description, `null` duration, `isActive: true`, `source: this.uuid`,
hazard icon, and the `isStatus` flag.  `fid` is the document id assigned by
the host on creation. -/
def mkStatusItem (statusName : String) (uuid : String) (fid : String) : Item :=
  { id := fid
    name := statusName
    type := "status"
    img := "icons/svg/hazard.svg"
    description := ""
    duration := none
    isActive := true
    source := uuid
    flagIsStatus := true }

/-- `BattlefieldActor.addStatus(statusName)` from `battlefield-system.js`:
throws on an empty / non-string name, and on a name whose characters all lie
in the JS trim whitespace set (`statusName.trim() === ''`); returns the
first existing Status child with the same (case-sensitive) name unchanged;
otherwise creates a new Status child (appended to the item collection) and
returns it together with the updated actor. -/
def addStatus (a : BattlefieldActor) (statusName : JSArg) (fid : String) :
    Except String (Item × BattlefieldActor) :=
  match statusName with
  | .jother => .error "Invalid status name provided"
  | .jstr s =>
    if s.data.all isJSWhitespace then .error "Invalid status name provided"
    else
      match a.items.find? (statusMatch s) with
      | some existing => .ok (existing, a)
      | none =>
        .ok (mkStatusItem s a.uuid fid,
             { uuid := a.uuid, items := a.items ++ [mkStatusItem s a.uuid fid] })

/-- The actor state after an `addStatus` call: unchanged when the call threw
(the exception aborts before any persistence write), the updated actor
otherwise. -/
def runAddStatus (a : BattlefieldActor) (statusName : JSArg) (fid : String) :
    BattlefieldActor :=
  match addStatus a statusName fid with
  | .ok r => r.2
  | .error _ => a

/-- The number of Status children of the actor carrying the given name. -/
def countStatusNamed (a : BattlefieldActor) (n : String) : Nat :=
  (a.items.filter (statusMatch n)).length

/-- `BattlefieldActor.removeStatus(statusId)` from `battlefield-system.js`:
looks the child up by id; when it is absent or not of type `status`, logs a
warning and returns an empty list with the actor unchanged; otherwise deletes
the child and returns it. -/
def removeStatus (a : BattlefieldActor) (statusId : String) :
    List Item × BattlefieldActor :=
  match a.items.find? (fun it => it.id == statusId) with
  | none => ([], a)
  | some statusItem =>
    if statusItem.type == "status" then
      ([statusItem],
       { uuid := a.uuid, items := a.items.filter (fun it => it.id != statusId) })
    else ([], a)

/-- `BattlefieldActor.getStatusItems()`: all children of type `status`, in
insertion order. -/
def getStatusItems (a : BattlefieldActor) : List Item :=
  a.items.filter (fun it => it.type == "status")

end CurrentGen

/-- An entry of the static `CONFIG.statusEffects` vocabulary: `id`, `label`,
`icon` and an optional structured duration. -/
structure StatusEffectConfig where
  id : String
  label : String
  icon : String
  duration : Option StatusDuration
deriving DecidableEq

/-- A host ActiveEffect document as created by the legacy
`addStatusEffect`: label/icon from the static configuration, a one-element
status-id set, origin, and duration fields snapshotted at creation time. -/
structure ActiveEffect where
  label : String
  icon : String
  statuses : List String
  origin : String
  durationRounds : Option Int
  durationSeconds : Option Int
  durationTurns : Option Int
  startRound : Option Int
  startTime : Int
deriving DecidableEq

/-- The session clock state read by the legacy `addStatusEffect`:
`game.combat?.round` (absent outside combat) and `game.time.worldTime`. -/
structure GameClock where
  combatRound : Option Int
  worldTime : Int
deriving DecidableEq

/-- The legacy-generation `BattlefieldActor`
(from `documents/BattlefieldActor.js`): identity plus its ActiveEffect
collection. -/
structure LegacyActor where
  uuid : String
  effects : List ActiveEffect
deriving DecidableEq

namespace LegacyGen

/-- JavaScript `x || null` on a nullable number: `0` is falsy and collapses
to `null`, as do `null`/`undefined`. -/
def jsOrNull (o : Option Int) : Option Int :=
  match o with
  | some v => if v = 0 then none else some v
  | none => none

/-- `BattlefieldActor.addStatusEffect(statusId)` from
`documents/BattlefieldActor.js` (legacy generation): throws when the id is
not in the static vocabulary; returns an existing effect whose status set is
exactly `{statusId}` unchanged; otherwise creates a new ActiveEffect with
duration fields snapshotted from the configuration and the session clock
(`... || null`, so a `0` snapshots as `null`). -/
def addStatusEffect (cfg : List StatusEffectConfig) (clock : GameClock)
    (a : LegacyActor) (statusId : String) :
    Except String (ActiveEffect × LegacyActor) :=
  match cfg.find? (fun e => e.id == statusId) with
  | none => .error ("Invalid status ID \"" ++ statusId ++ "\" provided")
  | some status =>
    match a.effects.find?
        (fun ef => ef.statuses.length == 1 && ef.statuses.contains status.id) with
    | some existing => .ok (existing, a)
    | none =>
      let effect : ActiveEffect :=
        { label := status.label
          icon := status.icon
          statuses := [status.id]
          origin := a.uuid
          durationRounds := jsOrNull (status.duration.bind (fun d => d.rounds))
          durationSeconds := jsOrNull (status.duration.bind (fun d => d.seconds))
          durationTurns := jsOrNull (status.duration.bind (fun d => d.turns))
          startRound := jsOrNull clock.combatRound
          startTime := clock.worldTime }
      .ok (effect, { uuid := a.uuid, effects := a.effects ++ [effect] })

end LegacyGen

namespace CurrentGen

/-- The deprecated `BattlefieldActor.addStatusEffect(statusId)` shim from
`battlefield-system.js` (newest generation): looks the id up in the static
vocabulary and, when found, evaluates `return this.addStatus(status.label)`.
That call is not awaited, so the surrounding `try`/`catch` guards only the
synchronous lookup: a rejection coming out of `addStatus` bypasses the
`catch` and propagates to the shim's caller (the `.error` branch of the
result).  When the id is not found (or a synchronous error were caught),
the shim falls through to `return null` with the actor unchanged. -/
def addStatusEffect (cfg : List StatusEffectConfig) (a : BattlefieldActor)
    (statusId : String) (fid : String) :
    Except String (Option Item × BattlefieldActor) :=
  match cfg.find? (fun e => e.id == statusId) with
  | none => .ok (none, a)
  | some status =>
    match addStatus a (.jstr status.label) fid with
    | .ok r => .ok (some r.1, r.2)
    | .error e => .error e

end CurrentGen

/-- A Hero record of the Army schema: `{name, equipment, traits}`. -/
structure Hero where
  name : String
  equipment : String
  traits : String
deriving DecidableEq

/-- An Enemy record of the Faction schema: `{name, deeds}`. -/
structure Enemy where
  name : String
  deeds : String
deriving DecidableEq

/-- A shallow-merge patch over a Hero record: fields present in the patch
overwrite, absent fields are retained (`{...old, ...heroData}`). -/
structure HeroPatch where
  name : Option String
  equipment : Option String
  traits : Option String
deriving DecidableEq

/-- The `heroData` argument of `updateHero`: a structured object carrying a
partial record, or any non-object value (rejected by
`typeof heroData !== 'object'`). -/
inductive HeroDataArg where
  | obj (p : HeroPatch)
  | nonObj
deriving DecidableEq

/-- `{...this.heroes[index], ...heroData}`: shallow merge of a partial
record over an existing Hero. -/
def mergeHero (h : Hero) (p : HeroPatch) : Hero :=
  { name := p.name.getD h.name
    equipment := p.equipment.getD h.equipment
    traits := p.traits.getD h.traits }

/-- The common list-removal shape shared verbatim by
`ArmyDataModel.removeHero`, `ArmyDataModel.removeLegendaryLegion`,
`FactionDataModel.removeEnemy` and `FactionDataModel.removeAlly`:
a `Number.isInteger` check and a bounds check, both raising inside a
`try`/`catch` that swallows the exception (so the list is returned
unchanged), and otherwise `splice(index, 1)` — a position-preserving
removal of the element at `index`. -/
def listRemoveJS {α : Type} (l : List α) (index : JSNum) : List α :=
  match index with
  | .nonInt => l
  | .int i =>
    if 0 ≤ i ∧ i < (l.length : Int) then l.eraseIdx i.toNat
    else l

/-- `ArmyDataModel.updateHero(index, heroData)` from
`documents/dataModels.js`: validates the index (`Number.isInteger`, bounds)
and the data (`typeof heroData === 'object'`), then shallow-merges the
partial record over the element at `index`.  Every raised error is caught by
the enclosing `try`/`catch` and only logged, so every invalid call returns
the list unchanged and no exception propagates. -/
def ArmyDataModel.updateHero (heroes : List Hero) (index : JSNum)
    (heroData : HeroDataArg) : List Hero :=
  match index with
  | .nonInt => heroes
  | .int i =>
    if h : 0 ≤ i ∧ i < (heroes.length : Int) then
      match heroData with
      | .nonObj => heroes
      | .obj p =>
        heroes.set i.toNat (mergeHero (heroes.get ⟨i.toNat, by
          obtain ⟨h1, h2⟩ := h
          omega⟩) p)
    else heroes

/-- `ArmyDataModel.removeHero(index)` from `documents/dataModels.js`. -/
def ArmyDataModel.removeHero (heroes : List Hero) (index : JSNum) : List Hero :=
  listRemoveJS heroes index

/-- `FactionDataModel.removeEnemy(index)` from `documents/dataModels.js`
(same shape as `removeHero`, instantiated for the `enemies` list). -/
def FactionDataModel.removeEnemy (enemies : List Enemy) (index : JSNum) :
    List Enemy :=
  listRemoveJS enemies index

/-- The `StructureDataModel` schema fields (`documents/dataModels.js`).
Nullable schema fields are `Option`s; numeric fields carry no fractional
behaviour in any embedded operation and are modelled as integers. -/
structure StructureDataModel where
  structureType : String
  buildingType : Option String
  description : Option String
  specialEffects : Option String
  ownerFaction : Option String
  defenseValue : Option Int
  isCapturable : Bool
  resourceProduction : Option String
deriving DecidableEq

/-- `StructureDataModel.getFullType()`: when `buildingType` is truthy
(non-null and non-empty) the derived string is
`"{structureType} - {buildingType}"`, otherwise just `structureType`. -/
def StructureDataModel.getFullType (s : StructureDataModel) : String :=
  match s.buildingType with
  | some b => if b = "" then s.structureType else s.structureType ++ " - " ++ b
  | none => s.structureType

/-- A Structure system payload with the given `structureType` and
`buildingType` and every other field at its schema initial. -/
def mkStructure (a : String) (b : Option String) : StructureDataModel :=
  { structureType := a
    buildingType := b
    description := some ""
    specialEffects := some ""
    ownerFaction := some ""
    defenseValue := some 0
    isCapturable := true
    resourceProduction := some "" }

/-- Flat form data / patch object: a string-keyed dictionary in insertion
order with unique keys, as produced by the host's form serializer. -/
abbrev FormData := List (String × String)

/-- `formData[k]` (`undefined` when the key is absent). -/
def lookupFD (fd : FormData) (k : String) : Option String :=
  (fd.find? (fun kv => kv.1 == k)).map (fun kv => kv.2)

/-- `delete formData[k]`. -/
def deleteKey (fd : FormData) (k : String) : FormData :=
  fd.filter (fun kv => kv.1 != k)

/-- The per-row field names handled by the Army sheet reassembly loop. -/
def heroFields : List String := ["name", "equipment", "traits"]

/-- The flat form key `hero-{field}-{i}`. -/
def heroKey (f : String) (i : Nat) : String :=
  "hero-" ++ f ++ "-" ++ toString i

/-- The dotted-path update key `system.heroes.{i}.{field}`. -/
def heroDotted (f : String) (i : Nat) : String :=
  "system.heroes." ++ toString i ++ "." ++ f

/-- One body of the reassembly loop of `ArmySheet._updateObject`: when
`formData['hero-{f}-{i}'] !== undefined`, move the value into the
`heroUpdates` dictionary under the dotted path and delete the flat key.
The state is the pair `(formData, heroUpdates)`. -/
def processField (st : FormData × FormData) (i : Nat) (f : String) :
    FormData × FormData :=
  match lookupFD st.1 (heroKey f i) with
  | some v => (deleteKey st.1 (heroKey f i), st.2 ++ [(heroDotted f i, v)])
  | none => st

/-- The full reassembly loop of `ArmySheet._updateObject`:
`for (let i = 0; i < heroes.length; i++)` over the three per-row fields,
starting from the submitted form data and an empty `heroUpdates`. -/
def processHeroes (fd : FormData) (len : Nat) : FormData × FormData :=
  (List.range len).foldl
    (fun st i => heroFields.foldl (fun st2 f => processField st2 i f) st)
    (fd, [])

/-- The effect of a later spread `b` on one entry of an earlier spread:
the value is overridden when `b` also carries the key. -/
def overrideBy (b : FormData) (kv : String × String) : String × String :=
  (kv.1, (lookupFD b kv.1).getD kv.2)

/-- Whether an entry of a later spread introduces a fresh key (one the
earlier spread `a` does not carry). -/
def keptBy (a : FormData) (kv : String × String) : Bool :=
  (lookupFD a kv.1).isNone

/-- JavaScript object spread `{...a, ...b}` on string-keyed dictionaries:
keys of `a` keep their position with values overridden by `b` where present;
keys of `b` absent from `a` are appended in order. -/
def mergeJS (a b : FormData) : FormData :=
  a.map (overrideBy b) ++ b.filter (keptBy a)

/-- The single combined patch passed to `this.actor.update({...formData,
...heroUpdates})` by `ArmySheet._updateObject`, given the submitted flat
form data and the current length of `this.actor.system.heroes`. -/
def armyUpdatePatch (fd : FormData) (len : Nat) : FormData :=
  mergeJS (processHeroes fd len).1 (processHeroes fd len).2

/-- Claim C2: `removeStatus(actor, statusId)` on an identity that is absent
from the actor's children, or whose child is not of the Status kind, returns
an empty result with the actor's children unchanged (and, being total, no
exception propagates); on a Status child it deletes that child and returns
the removed entity. -/
theorem removeStatus_spec (a : BattlefieldActor) (sid : String) :
    ((∀ it : Item, a.items.find? (fun x => x.id == sid) = some it →
        it.type ≠ "status") →
      CurrentGen.removeStatus a sid = ([], a))
    ∧ (∀ it : Item, a.items.find? (fun x => x.id == sid) = some it →
        it.type = "status" →
        CurrentGen.removeStatus a sid =
          ([it], { uuid := a.uuid,
                   items := a.items.filter (fun x => x.id != sid) })) := by
  constructor
  · intro h
    cases hf : a.items.find? (fun x => x.id == sid) with
    | none => simp [CurrentGen.removeStatus, hf]
    | some it =>
      have hb : (it.type == "status") = false := by
        simpa using h it hf
      simp [CurrentGen.removeStatus, hf, hb]
  · intro it hf ht
    have hb : (it.type == "status") = true := by simpa using ht
    simp [CurrentGen.removeStatus, hf, hb]

theorem removeStatus_spec_witness :
    CurrentGen.removeStatus ⟨"Actor.u1", []⟩ "s1" = ([], ⟨"Actor.u1", []⟩) :=
  (removeStatus_spec ⟨"Actor.u1", []⟩ "s1").1 (fun _ h => nomatch h)

/-- Claim C4: for a valid integer index `0 ≤ i < length`, `removeHero`
removes exactly the element at `i`: the length drops by one, every element
before `i` is unchanged, and every element after `i` shifts down one
position with unchanged content. -/
theorem removeHero_valid_splice (hs : List Hero) (i : Int)
    (h1 : 0 ≤ i) (h2 : i < (hs.length : Int)) :
    (ArmyDataModel.removeHero hs (.int i)).length = hs.length - 1
    ∧ (∀ j : Nat, (j : Int) < i →
        (ArmyDataModel.removeHero hs (.int i))[j]? = hs[j]?)
    ∧ (∀ j : Nat, i ≤ (j : Int) → j + 1 < hs.length →
        (ArmyDataModel.removeHero hs (.int i))[j]? = hs[j + 1]?) := by
  have hrem : ArmyDataModel.removeHero hs (.int i) = hs.eraseIdx i.toNat := by
    simp only [ArmyDataModel.removeHero, listRemoveJS]
    rw [if_pos ⟨h1, h2⟩]
  have hk : i.toNat < hs.length := by omega
  refine ⟨?_, ?_, ?_⟩
  · rw [hrem, List.length_eraseIdx]
    simp [hk]
  · intro j hj
    have hj' : j < i.toNat := by omega
    rw [hrem, List.eraseIdx_eq_take_drop_succ,
      List.getElem?_append_left (by rw [List.length_take]; omega),
      List.getElem?_take_of_lt hj']
  · intro j hj hj2
    have hlen : (hs.take i.toNat).length ≤ j := by rw [List.length_take]; omega
    rw [hrem, List.eraseIdx_eq_take_drop_succ,
      List.getElem?_append_right hlen, List.getElem?_drop]
    congr 1
    rw [List.length_take]
    omega

theorem removeHero_valid_splice_witness :
    (ArmyDataModel.removeHero
        [⟨"Thorin", "axe", "brave"⟩, ⟨"Balin", "sword", "wise"⟩]
        (.int 0)).length = 1
    ∧ (ArmyDataModel.removeHero
        [⟨"Thorin", "axe", "brave"⟩, ⟨"Balin", "sword", "wise"⟩]
        (.int 0))[0]? = some ⟨"Balin", "sword", "wise"⟩ := by
  have h := removeHero_valid_splice
    [⟨"Thorin", "axe", "brave"⟩, ⟨"Balin", "sword", "wise"⟩] 0
    (by decide) (by decide)
  refine ⟨h.1, ?_⟩
  have h0 := h.2.2 0 (by decide) (by decide)
  rw [h0]
  rfl

/-- Claim C5: `updateHero` with a negative index or an index at or beyond
the list length leaves the list completely unchanged; the internally raised
out-of-bounds error is swallowed by the enclosing `try`/`catch`, so (the
function being total) no exception propagates past the call. -/
theorem updateHero_out_of_bounds (hs : List Hero) (i : Int) (d : HeroDataArg)
    (h : i < 0 ∨ (hs.length : Int) ≤ i) :
    ArmyDataModel.updateHero hs (.int i) d = hs := by
  have hc : ¬(0 ≤ i ∧ i < (hs.length : Int)) := by omega
  simp [ArmyDataModel.updateHero, hc]

theorem updateHero_out_of_bounds_witness :
    ArmyDataModel.updateHero [⟨"Thorin", "", ""⟩] (.int 5) .nonObj
      = [⟨"Thorin", "", ""⟩] :=
  updateHero_out_of_bounds [⟨"Thorin", "", ""⟩] 5 .nonObj (Or.inr (by decide))

/-- Claim C6: `getFullType` yields `"A - B"` for a non-empty buildingType
`B` and exactly `A` when buildingType is empty (covering both the empty
string and the null value of the nullable schema field). -/
theorem getFullType_spec (a b : String) :
    (b ≠ "" → (mkStructure a (some b)).getFullType = a ++ " - " ++ b)
    ∧ (mkStructure a (some "")).getFullType = a
    ∧ (mkStructure a none).getFullType = a := by
  refine ⟨fun hb => ?_, ?_, rfl⟩
  · simp [mkStructure, StructureDataModel.getFullType, hb]
  · simp [mkStructure, StructureDataModel.getFullType]

theorem getFullType_spec_witness :
    ("Keep" : String) ≠ ""
    ∧ (mkStructure "Fortress" (some "Keep")).getFullType = "Fortress - Keep" := by
  refine ⟨by decide, ?_⟩
  rw [(getFullType_spec "Fortress" "Keep").1 (by decide)]
  rfl

/-- Claim C10: the remove operations mirror the silent-failure policy of
`update`: for an index that is negative, at or beyond the list length, or
not an integer at all, `removeHero` and `removeEnemy` leave their lists
completely unchanged, and (the functions being total) no exception
propagates past the call. -/
theorem remove_invalid_index_noop (hs : List Hero) (es : List Enemy)
    (idx : JSNum)
    (hh : ∀ i : Int, idx = .int i → i < 0 ∨ (hs.length : Int) ≤ i)
    (he : ∀ i : Int, idx = .int i → i < 0 ∨ (es.length : Int) ≤ i) :
    ArmyDataModel.removeHero hs idx = hs
    ∧ FactionDataModel.removeEnemy es idx = es := by
  cases idx with
  | nonInt => exact ⟨rfl, rfl⟩
  | int i =>
    have h1 : ¬(0 ≤ i ∧ i < (hs.length : Int)) := by
      have := hh i rfl
      omega
    have h2 : ¬(0 ≤ i ∧ i < (es.length : Int)) := by
      have := he i rfl
      omega
    constructor
    · simp [ArmyDataModel.removeHero, listRemoveJS, h1]
    · simp [FactionDataModel.removeEnemy, listRemoveJS, h2]

theorem remove_invalid_index_noop_witness :
    ArmyDataModel.removeHero [⟨"Thorin", "", ""⟩] (.int (-1))
      = [⟨"Thorin", "", ""⟩]
    ∧ FactionDataModel.removeEnemy [⟨"Smaug", "burned Dale"⟩] (.int (-1))
      = [⟨"Smaug", "burned Dale"⟩] :=
  remove_invalid_index_noop [⟨"Thorin", "", ""⟩] [⟨"Smaug", "burned Dale"⟩]
    (.int (-1))
    (fun i h => by cases h; exact Or.inl (by decide))
    (fun i h => by cases h; exact Or.inl (by decide))

-- `List.find?` over an append whose left part has no match.
theorem find?_append_of_none {α : Type} (p : α → Bool) (l1 l2 : List α)
    (h : l1.find? p = none) : (l1 ++ l2).find? p = l2.find? p := by
  induction l1 with
  | nil => rfl
  | cons x xs ih =>
    cases hp : p x with
    | true =>
      rw [List.find?_cons_of_pos _ hp] at h
      exact absurd h (by simp)
    | false =>
      have hp' : ¬ p x = true := by simp [hp]
      rw [List.find?_cons_of_neg _ hp'] at h
      rw [List.cons_append, List.find?_cons_of_neg _ hp']
      exact ih h

-- An actor with no Status child of a given name has no match for the
-- `addStatus` search predicate.
theorem find?_statusMatch_of_count_zero (a : BattlefieldActor) (n : String)
    (h : CurrentGen.countStatusNamed a n = 0) :
    a.items.find? (CurrentGen.statusMatch n) = none := by
  rw [List.find?_eq_none]
  exact fun x hx => List.filter_eq_nil_iff.mp (List.length_eq_zero.mp h) x hx

/-- Claim C1 counterexample: the whitespace-only name `" "` is a non-empty
string, yet `addStatus` rejects it (the source also requires
`statusName.trim() !== ''`), so two calls on a fresh actor leave zero — not
exactly one — Status children of that name. -/
theorem addStatus_twice_whitespace_cex :
    (" " : String) ≠ ""
    ∧ CurrentGen.addStatus ⟨"Actor.u1", []⟩ (.jstr " ") "i1"
        = .error "Invalid status name provided"
    ∧ CurrentGen.countStatusNamed
        (CurrentGen.runAddStatus
          (CurrentGen.runAddStatus ⟨"Actor.u1", []⟩ (.jstr " ") "i1")
          (.jstr " ") "i2") " " = 0 :=
  ⟨by decide, rfl, rfl⟩

/-- Claim C1 (amended): for a name containing at least one character
outside the JS trim whitespace set (so that `trim()` is non-empty) and an
actor with no existing Status child of that name, two `addStatus` calls
leave exactly one Status child of that name: the second call finds the
case-sensitive exact-name match created by the first and returns that
existing entity unchanged without creating a new one. -/
theorem addStatus_twice_idempotent (a : BattlefieldActor) (n i1 i2 : String)
    (hn : n.data.all isJSWhitespace = false)
    (h0 : CurrentGen.countStatusNamed a n = 0) :
    CurrentGen.countStatusNamed
      (CurrentGen.runAddStatus
        (CurrentGen.runAddStatus a (.jstr n) i1) (.jstr n) i2) n = 1
    ∧ CurrentGen.addStatus
        (CurrentGen.runAddStatus a (.jstr n) i1) (.jstr n) i2
        = .ok (CurrentGen.mkStatusItem n a.uuid i1,
               CurrentGen.runAddStatus a (.jstr n) i1) := by
  have hfind := find?_statusMatch_of_count_zero a n h0
  have h1 : CurrentGen.addStatus a (.jstr n) i1
      = .ok (CurrentGen.mkStatusItem n a.uuid i1,
             { uuid := a.uuid,
               items := a.items ++ [CurrentGen.mkStatusItem n a.uuid i1] }) := by
    simp [CurrentGen.addStatus, hn, hfind]
  have hrun1 : CurrentGen.runAddStatus a (.jstr n) i1
      = { uuid := a.uuid,
          items := a.items ++ [CurrentGen.mkStatusItem n a.uuid i1] } := by
    simp [CurrentGen.runAddStatus, h1]
  have hmatch : CurrentGen.statusMatch n (CurrentGen.mkStatusItem n a.uuid i1)
      = true := by
    simp [CurrentGen.statusMatch, CurrentGen.mkStatusItem]
  have hfind2 : (a.items ++ [CurrentGen.mkStatusItem n a.uuid i1]).find?
      (CurrentGen.statusMatch n)
      = some (CurrentGen.mkStatusItem n a.uuid i1) := by
    rw [find?_append_of_none _ _ _ hfind]
    rw [List.find?_cons_of_pos _ hmatch]
  have h2 : CurrentGen.addStatus
      { uuid := a.uuid,
        items := a.items ++ [CurrentGen.mkStatusItem n a.uuid i1] }
      (.jstr n) i2
      = .ok (CurrentGen.mkStatusItem n a.uuid i1,
             { uuid := a.uuid,
               items := a.items ++ [CurrentGen.mkStatusItem n a.uuid i1] }) := by
    simp [CurrentGen.addStatus, hn, hfind2]
  have hcount : CurrentGen.countStatusNamed
      { uuid := a.uuid,
        items := a.items ++ [CurrentGen.mkStatusItem n a.uuid i1] } n = 1 := by
    unfold CurrentGen.countStatusNamed
    simp only [List.filter_append, List.length_eq_zero.mp h0]
    simp [List.filter, hmatch]
  constructor
  · rw [hrun1]
    have hrun2 : CurrentGen.runAddStatus
        { uuid := a.uuid,
          items := a.items ++ [CurrentGen.mkStatusItem n a.uuid i1] }
        (.jstr n) i2
        = { uuid := a.uuid,
            items := a.items ++ [CurrentGen.mkStatusItem n a.uuid i1] } := by
      simp [CurrentGen.runAddStatus, h2]
    rw [hrun2]
    exact hcount
  · rw [hrun1]
    exact h2

theorem addStatus_twice_idempotent_witness :
    CurrentGen.countStatusNamed
      (CurrentGen.runAddStatus
        (CurrentGen.runAddStatus ⟨"Actor.u3", []⟩ (.jstr "Poisoned") "i1")
        (.jstr "Poisoned") "i2") "Poisoned" = 1 :=
  (addStatus_twice_idempotent ⟨"Actor.u3", []⟩ "Poisoned" "i1" "i2"
    (by decide) rfl).1

/-- Claim C8: `addStatus` throws its invalid-input error on the empty name
and on any non-string argument, leaving the actor unchanged; and for every
name passing the operation's validation with no existing case-sensitive
match it creates and returns a new Status child with empty description,
null duration, `isActive` true, and `source` equal to the actor's own
identity reference. -/
theorem addStatus_validation_and_create (a : BattlefieldActor) (fid : String) :
    (CurrentGen.addStatus a (.jstr "") fid
        = .error "Invalid status name provided"
      ∧ CurrentGen.addStatus a .jother fid
        = .error "Invalid status name provided"
      ∧ CurrentGen.runAddStatus a (.jstr "") fid = a
      ∧ CurrentGen.runAddStatus a .jother fid = a)
    ∧ (∀ n : String, isValidStatusName (.jstr n) = true →
        a.items.find? (CurrentGen.statusMatch n) = none →
        CurrentGen.addStatus a (.jstr n) fid
          = .ok (CurrentGen.mkStatusItem n a.uuid fid,
                 { uuid := a.uuid,
                   items := a.items ++ [CurrentGen.mkStatusItem n a.uuid fid] })
          ∧ (CurrentGen.mkStatusItem n a.uuid fid).description = ""
          ∧ (CurrentGen.mkStatusItem n a.uuid fid).duration = none
          ∧ (CurrentGen.mkStatusItem n a.uuid fid).isActive = true
          ∧ (CurrentGen.mkStatusItem n a.uuid fid).source = a.uuid) := by
  refine ⟨⟨rfl, rfl, rfl, rfl⟩, ?_⟩
  intro n hv hf
  have hn : n.data.all isJSWhitespace = false := by
    simpa [isValidStatusName] using hv
  exact ⟨by simp [CurrentGen.addStatus, hn, hf], rfl, rfl, rfl, rfl⟩

theorem addStatus_validation_and_create_witness :
    CurrentGen.addStatus ⟨"Actor.u4", []⟩ (.jstr "Burning") "i9"
      = .ok (CurrentGen.mkStatusItem "Burning" "Actor.u4" "i9",
             ⟨"Actor.u4", [CurrentGen.mkStatusItem "Burning" "Actor.u4" "i9"]⟩) :=
  ((addStatus_validation_and_create ⟨"Actor.u4", []⟩ "i9").2 "Burning"
    (by decide) rfl).1

/-- Claim C9 counterexample: the newest-generation deprecated
`addStatusEffect` shim does not raise on an unrecognized id — with an empty
vocabulary it resolves successfully to a null result with the actor
unchanged, instead of failing with an invalid-input error. -/
theorem addStatusEffect_shim_silent_cex :
    CurrentGen.addStatusEffect [] ⟨"Actor.u2", []⟩ "stunned" "i1"
      = .ok (none, ⟨"Actor.u2", []⟩) := rfl

/-- Claim C9 (amended): for a statusId absent from the static vocabulary,
the legacy-generation `addStatusEffect` (`documents/BattlefieldActor.js`)
throws its invalid-id error, while the newest-generation deprecated shim
(`battlefield-system.js`) instead resolves successfully to a null result
with the actor unchanged, raising nothing on that path. -/
theorem addStatusEffect_unrecognized_id (cfg : List StatusEffectConfig)
    (clock : GameClock) (la : LegacyActor) (a : BattlefieldActor)
    (sid fid : String)
    (h : cfg.find? (fun e => e.id == sid) = none) :
    LegacyGen.addStatusEffect cfg clock la sid
      = .error ("Invalid status ID \"" ++ sid ++ "\" provided")
    ∧ CurrentGen.addStatusEffect cfg a sid fid = .ok (none, a) := by
  constructor
  · simp [LegacyGen.addStatusEffect, h]
  · simp [CurrentGen.addStatusEffect, h]

theorem addStatusEffect_unrecognized_id_witness :
    LegacyGen.addStatusEffect [] ⟨none, 0⟩ ⟨"Actor.u5", []⟩ "weakness"
      = .error ("Invalid status ID \"" ++ "weakness" ++ "\" provided")
    ∧ CurrentGen.addStatusEffect [] ⟨"Actor.u5", []⟩ "weakness" "i1"
      = .ok (none, ⟨"Actor.u5", []⟩) :=
  addStatusEffect_unrecognized_id [] ⟨none, 0⟩ ⟨"Actor.u5", []⟩
    ⟨"Actor.u5", []⟩ "weakness" "i1" rfl

-- `List.find?` over an append whose left part already has a match.
theorem find?_append_of_some {α : Type} (p : α → Bool) (l1 l2 : List α) (x : α)
    (h : l1.find? p = some x) : (l1 ++ l2).find? p = some x := by
  induction l1 with
  | nil => exact absurd h (by simp)
  | cons y ys ih =>
    cases hp : p y with
    | true =>
      rw [List.find?_cons_of_pos _ hp] at h
      rw [List.cons_append, List.find?_cons_of_pos _ hp]
      exact h
    | false =>
      have hp' : ¬ p y = true := by simp [hp]
      rw [List.find?_cons_of_neg _ hp'] at h
      rw [List.cons_append, List.find?_cons_of_neg _ hp']
      exact ih h

-- The element produced by a successful `List.find?` satisfies the
-- predicate (stated with an explicit predicate for smooth unification).
theorem find?_sat {α : Type} (p : α → Bool) (l : List α) (x : α)
    (h : l.find? p = some x) : p x = true :=
  List.find?_some h

-- Filtering with a predicate that keeps every entry carrying key `k` does
-- not change the first entry found for `k`.
theorem find?_key_filter (b : List (String × String))
    (q : String × String → Bool) (k : String)
    (hq : ∀ kv, kv.1 = k → q kv = true) :
    (b.filter q).find? (fun kv => kv.1 == k)
      = b.find? (fun kv => kv.1 == k) := by
  induction b with
  | nil => rfl
  | cons kv bs ih =>
    by_cases hk : kv.1 = k
    · have hq' : q kv = true := hq kv hk
      have hkb : (kv.1 == k) = true := by simpa using hk
      rw [List.filter_cons_of_pos hq']
      simp only [List.find?_cons, hkb]
    · have hkb : (kv.1 == k) = false := by simpa using hk
      cases hqv : q kv with
      | true =>
        rw [List.filter_cons_of_pos hqv]
        simp only [List.find?_cons, hkb]
        exact ih
      | false =>
        rw [List.filter_cons_of_neg (by simp [hqv])]
        rw [ih]
        simp only [List.find?_cons, hkb]

-- The value-overriding map of `mergeJS` preserves keys, so searching the
-- mapped list is searching the original list and then mapping.
theorem find?_key_map_override (a b : List (String × String)) (k : String) :
    (a.map (overrideBy b)).find? (fun kv => kv.1 == k)
      = (a.find? (fun kv => kv.1 == k)).map (overrideBy b) := by
  rw [List.find?_map]
  rfl

-- In `{...a, ...b}` a key present in `b` ends up with the value from `b`,
-- whether or not `a` also carries it.
theorem lookupFD_mergeJS_right (a b : FormData) (k v : String)
    (h : lookupFD b k = some v) : lookupFD (mergeJS a b) k = some v := by
  cases ha : a.find? (fun kv => kv.1 == k) with
  | none =>
    have hmap : (a.map (overrideBy b)).find? (fun kv => kv.1 == k) = none := by
      rw [find?_key_map_override a b k, ha]
      rfl
    show ((a.map (overrideBy b) ++ b.filter (keptBy a)).find?
        (fun kv => kv.1 == k)).map (fun kv => kv.2) = some v
    rw [find?_append_of_none _ _ _ hmap]
    rw [find?_key_filter b (keptBy a) k (fun kv hkv => by
      show (lookupFD a kv.1).isNone = true
      rw [hkv]
      show ((a.find? (fun x => x.1 == k)).map (fun x => x.2)).isNone = true
      rw [ha]
      rfl)]
    exact h
  | some kv0 =>
    have hk0 := find?_sat (fun kv => kv.1 == k) a kv0 ha
    have hk0' : kv0.1 = k := by simpa using hk0
    have hmap : (a.map (overrideBy b)).find? (fun kv => kv.1 == k)
        = some (overrideBy b kv0) := by
      rw [find?_key_map_override a b k, ha]
      rfl
    show ((a.map (overrideBy b) ++ b.filter (keptBy a)).find?
        (fun kv => kv.1 == k)).map (fun kv => kv.2) = some v
    rw [find?_append_of_some _ _ _ _ hmap]
    show some ((overrideBy b kv0).2) = some v
    unfold overrideBy
    rw [hk0', h]
    rfl

/-- Claim C3: on the flat form data `hero-name-0 = "Conan"`,
`hero-equipment-0 = "Sword"`, `faction = "Cimmeria"` with one existing hero,
the single combined patch carries the two dotted-path hero updates and the
untouched `faction` key, and none of the flat `hero-*-0` keys; and in
general a key present in the generated row updates wins over a same-named
flat key, because the row updates are spread last. -/
theorem army_form_reassembly_spec :
    (lookupFD (armyUpdatePatch
        [("hero-name-0", "Conan"), ("hero-equipment-0", "Sword"),
         ("faction", "Cimmeria")] 1) "system.heroes.0.name" = some "Conan"
      ∧ lookupFD (armyUpdatePatch
        [("hero-name-0", "Conan"), ("hero-equipment-0", "Sword"),
         ("faction", "Cimmeria")] 1) "system.heroes.0.equipment" = some "Sword"
      ∧ lookupFD (armyUpdatePatch
        [("hero-name-0", "Conan"), ("hero-equipment-0", "Sword"),
         ("faction", "Cimmeria")] 1) "faction" = some "Cimmeria"
      ∧ lookupFD (armyUpdatePatch
        [("hero-name-0", "Conan"), ("hero-equipment-0", "Sword"),
         ("faction", "Cimmeria")] 1) "hero-name-0" = none
      ∧ lookupFD (armyUpdatePatch
        [("hero-name-0", "Conan"), ("hero-equipment-0", "Sword"),
         ("faction", "Cimmeria")] 1) "hero-equipment-0" = none
      ∧ lookupFD (armyUpdatePatch
        [("hero-name-0", "Conan"), ("hero-equipment-0", "Sword"),
         ("faction", "Cimmeria")] 1) "hero-traits-0" = none)
    ∧ (∀ a b : FormData, ∀ k v : String, lookupFD b k = some v →
        lookupFD (mergeJS a b) k = some v) := by
  exact ⟨⟨by decide, by decide, by decide, by decide, by decide, by decide⟩,
    fun a b k v h => lookupFD_mergeJS_right a b k v h⟩

theorem army_form_reassembly_spec_witness :
    lookupFD (mergeJS [("faction", "Aquilonia")] [("faction", "Cimmeria")])
      "faction" = some "Cimmeria" :=
  army_form_reassembly_spec.2 [("faction", "Aquilonia")]
    [("faction", "Cimmeria")] "faction" "Cimmeria" (by decide)

-- Deleting one key of a form-data dictionary does not change the lookup
-- of any other key.
theorem lookupFD_deleteKey_ne (fd : FormData) (key0 k : String)
    (hne : key0 ≠ k) : lookupFD (deleteKey fd key0) k = lookupFD fd k := by
  show ((fd.filter (fun kv => kv.1 != key0)).find? (fun kv => kv.1 == k)).map
      (fun kv => kv.2)
    = (fd.find? (fun kv => kv.1 == k)).map (fun kv => kv.2)
  rw [find?_key_filter fd _ k (fun kv hkv => by
    rw [hkv]
    simpa using Ne.symm hne)]

-- One loop body of the reassembly never changes the form-data lookup of a
-- key other than the row key it handles.
theorem processField_fst_lookup (st : FormData × FormData) (i : Nat)
    (f : String) (k : String) (hne : heroKey f i ≠ k) :
    lookupFD (processField st i f).1 k = lookupFD st.1 k := by
  cases hl : lookupFD st.1 (heroKey f i) with
  | none => simp only [processField, hl]
  | some v =>
    simp only [processField, hl]
    exact lookupFD_deleteKey_ne st.1 (heroKey f i) k hne

-- One whole row of the reassembly loop preserves the form-data lookup of
-- every key other than that row's three row keys.
theorem processRow_fst_lookup (st : FormData × FormData) (i : Nat)
    (k : String) (h : ∀ f ∈ heroFields, heroKey f i ≠ k) :
    lookupFD (heroFields.foldl (fun st2 f => processField st2 i f) st).1 k
      = lookupFD st.1 k := by
  show lookupFD (processField (processField (processField st i "name")
      i "equipment") i "traits").1 k = lookupFD st.1 k
  rw [processField_fst_lookup _ i "traits" k
    (h "traits" (by simp [heroFields]))]
  rw [processField_fst_lookup _ i "equipment" k
    (h "equipment" (by simp [heroFields]))]
  exact processField_fst_lookup _ i "name" k (h "name" (by simp [heroFields]))

-- Unrolling of the reassembly loop by its last visited index.
theorem processHeroes_succ (fd : FormData) (m : Nat) :
    processHeroes fd (m + 1)
      = heroFields.foldl (fun st2 f => processField st2 m f)
          (processHeroes fd m) := by
  unfold processHeroes
  rw [List.range_succ, List.foldl_append, List.foldl_cons, List.foldl_nil]

-- The whole reassembly loop preserves the form-data lookup of every key
-- that is not an in-range row key.
theorem processHeroes_fst_lookup (fd : FormData) (len : Nat) (k : String)
    (hk : ∀ j, j < len → ∀ f ∈ heroFields, heroKey f j ≠ k) :
    lookupFD (processHeroes fd len).1 k = lookupFD fd k := by
  induction len with
  | zero => rfl
  | succ m ih =>
    rw [processHeroes_succ]
    rw [processRow_fst_lookup _ m k (hk m (Nat.lt_succ_self m))]
    exact ih (fun j hj f hf => hk j (Nat.lt_succ_of_lt hj) f hf)

-- Every entry one loop body adds to the generated row updates carries that
-- body's dotted-path key.
theorem processField_snd_keys (st : FormData × FormData) (i : Nat)
    (f : String) (kv : String × String) (h : kv ∈ (processField st i f).2) :
    kv ∈ st.2 ∨ kv.1 = heroDotted f i := by
  cases hl : lookupFD st.1 (heroKey f i) with
  | none =>
    simp only [processField, hl] at h
    exact Or.inl h
  | some v =>
    simp only [processField, hl] at h
    rcases List.mem_append.mp h with h1 | h2
    · exact Or.inl h1
    · have h3 := List.mem_singleton.mp h2
      exact Or.inr (by rw [h3])

-- Every entry one row of the loop adds to the generated row updates
-- carries one of that row's three dotted-path keys.
theorem processRow_snd_keys (st : FormData × FormData) (i : Nat)
    (kv : String × String)
    (h : kv ∈ (heroFields.foldl (fun st2 f => processField st2 i f) st).2) :
    kv ∈ st.2 ∨ ∃ f ∈ heroFields, kv.1 = heroDotted f i := by
  have h3 : kv ∈ (processField (processField (processField st i "name")
      i "equipment") i "traits").2 := h
  rcases processField_snd_keys _ i "traits" kv h3 with h2 | hd
  · rcases processField_snd_keys _ i "equipment" kv h2 with h1 | hd
    · rcases processField_snd_keys _ i "name" kv h1 with h0 | hd
      · exact Or.inl h0
      · exact Or.inr ⟨"name", by simp [heroFields], hd⟩
    · exact Or.inr ⟨"equipment", by simp [heroFields], hd⟩
  · exact Or.inr ⟨"traits", by simp [heroFields], hd⟩

-- Every key of the generated row updates is an in-range dotted-path key.
theorem processHeroes_snd_keys (fd : FormData) (len : Nat)
    (kv : String × String) (h : kv ∈ (processHeroes fd len).2) :
    ∃ j, j < len ∧ ∃ f ∈ heroFields, kv.1 = heroDotted f j := by
  induction len with
  | zero => exact absurd h (List.not_mem_nil kv)
  | succ m ih =>
    rw [processHeroes_succ] at h
    rcases processRow_snd_keys _ m kv h with h1 | ⟨f, hf, hkey⟩
    · obtain ⟨j, hj, rest⟩ := ih h1
      exact ⟨j, Nat.lt_succ_of_lt hj, rest⟩
    · exact ⟨m, Nat.lt_succ_self m, f, hf, hkey⟩

-- In `{...a, ...b}` a key absent from `b` keeps the value it has in `a`.
theorem lookupFD_mergeJS_left (a b : FormData) (k : String)
    (h : lookupFD b k = none) : lookupFD (mergeJS a b) k = lookupFD a k := by
  have hfb : b.find? (fun kv => kv.1 == k) = none := Option.map_eq_none'.mp h
  cases ha : a.find? (fun kv => kv.1 == k) with
  | none =>
    have hmap : (a.map (overrideBy b)).find? (fun kv => kv.1 == k) = none := by
      rw [find?_key_map_override a b k, ha]
      rfl
    show ((a.map (overrideBy b) ++ b.filter (keptBy a)).find?
        (fun kv => kv.1 == k)).map (fun kv => kv.2) = lookupFD a k
    rw [find?_append_of_none _ _ _ hmap]
    have hbf : (b.filter (keptBy a)).find? (fun kv => kv.1 == k) = none := by
      rw [List.find?_eq_none]
      exact fun kv hkv =>
        List.find?_eq_none.mp hfb kv (List.mem_of_mem_filter hkv)
    rw [hbf]
    show (none : Option String) = lookupFD a k
    rw [show lookupFD a k = (a.find? (fun kv => kv.1 == k)).map
      (fun kv => kv.2) from rfl, ha]
    rfl
  | some kv0 =>
    have hk0 := find?_sat (fun kv => kv.1 == k) a kv0 ha
    have hk0' : kv0.1 = k := by simpa using hk0
    have hmap : (a.map (overrideBy b)).find? (fun kv => kv.1 == k)
        = some (overrideBy b kv0) := by
      rw [find?_key_map_override a b k, ha]
      rfl
    show ((a.map (overrideBy b) ++ b.filter (keptBy a)).find?
        (fun kv => kv.1 == k)).map (fun kv => kv.2) = lookupFD a k
    rw [find?_append_of_some _ _ _ _ hmap]
    show some ((lookupFD b kv0.1).getD kv0.2) = lookupFD a k
    rw [hk0', h]
    show some kv0.2 = lookupFD a k
    rw [show lookupFD a k = (a.find? (fun kv => kv.1 == k)).map
      (fun kv => kv.2) from rfl, ha]
    rfl

/-- Claim C7 counterexample: with one existing hero, the flat key
`hero-name-1` (row index `1`, equal to the list length) is NOT projected to
the dotted path `system.heroes.1.name` — the reassembly loop stops at the
current list length, so the patch passes the flat key through unchanged and
contains no dotted-path update for it. -/
theorem form_reassembly_out_of_range_cex :
    armyUpdatePatch [("hero-name-1", "Conan")] 1 = [("hero-name-1", "Conan")]
    ∧ lookupFD (armyUpdatePatch [("hero-name-1", "Conan")] 1)
        "system.heroes.1.name" = none := by
  exact ⟨by decide, by decide⟩

/-- Claim C7 (amended): for every flat form-data mapping, a key matched by
no in-range row key — in particular any row-scoped `hero-{field}-{i}` with
`i` at or beyond the current list length, since the loop only visits
indices below the length — and distinct from every in-range generated
dotted path (automatic for flat row-scoped keys) is not projected at all:
the outgoing patch maps it exactly as the submitted form data does (it
passes through unchanged as a flat key rather than being dropped), and the
generated row updates contain no entry for it. -/
theorem form_reassembly_out_of_range_passthrough (fd : FormData) (k : String)
    (len : Nat)
    (hk : ∀ j, j < len → ∀ f ∈ heroFields, heroKey f j ≠ k)
    (hd : ∀ j, j < len → ∀ f ∈ heroFields, heroDotted f j ≠ k) :
    lookupFD (armyUpdatePatch fd len) k = lookupFD fd k
    ∧ lookupFD (processHeroes fd len).2 k = none := by
  have hfind : (processHeroes fd len).2.find? (fun kv => kv.1 == k)
      = none := by
    rw [List.find?_eq_none]
    intro kv hkv hpk
    obtain ⟨j, hj, f, hf, hkey⟩ := processHeroes_snd_keys fd len kv hkv
    have hkk : kv.1 = k := by simpa using hpk
    rw [hkey] at hkk
    exact hd j hj f hf hkk
  have hhu : lookupFD (processHeroes fd len).2 k = none := by
    show ((processHeroes fd len).2.find? (fun kv => kv.1 == k)).map
        (fun kv => kv.2) = none
    rw [hfind]
    rfl
  refine ⟨?_, hhu⟩
  unfold armyUpdatePatch
  rw [lookupFD_mergeJS_left _ _ _ hhu]
  exact processHeroes_fst_lookup fd len k hk

theorem form_reassembly_out_of_range_passthrough_witness :
    lookupFD (armyUpdatePatch
        [("hero-name-1", "Conan"), ("faction", "Cimmeria")] 1) "hero-name-1"
      = lookupFD [("hero-name-1", "Conan"), ("faction", "Cimmeria")]
          "hero-name-1" :=
  (form_reassembly_out_of_range_passthrough
    [("hero-name-1", "Conan"), ("faction", "Cimmeria")] "hero-name-1" 1
    (by decide) (by decide)).1
